import Mathlib

/-!
Verification of the simulation core of the survival-action game demo.

The definitions below are a shallow embedding of the TypeScript sources:
  - GameLoopController.ts   (frame scheduler)
  - WaveManager.ts          (wave director)
  - InputManager.ts         (input adapter)
  - GameStateManager.ts     (phase and progress coordinator)
  - GameEngine.ts           (simulation orchestrator)

Machine numbers of the source are JavaScript doubles; they are modelled as
rationals, which is faithful for every ordering and clamping fact proved here.
Randomised spawn geometry (Math.random positions) is not modelled: no theorem
below concerns spawn positions, only counts, identities and state evolution.
-/

namespace Game

/-- Game phases of the useGameState store. -/
inductive Phase
  | ready
  | playing
  | paused
  | levelUp
  | gameOver
  | ended
  | characterSelect
  deriving DecidableEq, Repr

/-- Embeds the deltaTime computation of GameLoopController.gameLoop:
the source computes Math.min((currentTime - lastTime) / 1000, 0.02);
note that there is no lower clamp in the source. -/
def gameLoopDelta (lastTime currentTime : ℚ) : ℚ :=
  min ((currentTime - lastTime) / 1000) (2 / 100)

/-- Modelled from the spec: the spec describes the frame delta as
clamp((now - lastTime)/1000, 0, 0.02), i.e. with an additional lower clamp
at zero that the source function does not perform.  This definition follows
the words of the spec and is compared against gameLoopDelta. -/
def specClampDelta (lastTime currentTime : ℚ) : ℚ :=
  max 0 (min ((currentTime - lastTime) / 1000) (2 / 100))

/-- Boss types of BossEnemy, in the order of the bossTypes array of
WaveManager.spawnBoss. -/
inductive BossType
  | necromancer
  | vampireLord
  | ancientGolem
  deriving DecidableEq, Repr

/-- The bossTypes array of WaveManager.spawnBoss. -/
def bossTypes : List BossType :=
  [BossType.necromancer, BossType.vampireLord, BossType.ancientGolem]

/-- An entity returned by WaveManager.spawnEnemies.  A boss carries the
selected boss type (none models the out-of-range undefined lookup of
JavaScript); a regular enemy is EnemyFactory.createRandomEnemy, whose
identity and position no claim depends on. -/
inductive Spawned
  | boss (bt : Option BossType)
  | regular
  deriving DecidableEq, Repr

/-- Mutable fields of WaveManager.  The fields waveDuration, maxEnemiesCap,
bossSpawnInterval and bossWarningTime are never reassigned in the source and
are modelled as the constants below. -/
structure WaveManager where
  currentWave : ℕ
  spawnTimer : ℚ
  spawnInterval : ℚ
  waveStartTime : ℚ
  maxActiveEnemies : ℕ
  bossSpawned : Bool
  bossDefeated : Bool
  bossWarningTriggered : Bool
  timeUntilBoss : ℚ
  deriving DecidableEq, Repr

/-- waveDuration = 30 seconds. -/
def waveDuration : ℚ := 30

/-- maxEnemiesCap = 80. -/
def maxEnemiesCap : ℕ := 80

/-- bossSpawnInterval = 5: every 5th wave is a boss wave. -/
def bossSpawnInterval : ℕ := 5

/-- bossWarningTime = 5 seconds: the boss spawn delay within a boss wave. -/
def bossWarningTime : ℚ := 5

/-- Initial field values of WaveManager. -/
def WaveManager.init : WaveManager :=
  { currentWave := 1
    spawnTimer := 0
    spawnInterval := 2
    waveStartTime := 0
    maxActiveEnemies := 25
    bossSpawned := false
    bossDefeated := false
    bossWarningTriggered := false
    timeUntilBoss := 0 }

/-- WaveManager.isBossWave: currentWave % bossSpawnInterval === 0. -/
def isBossWave (s : WaveManager) : Bool :=
  s.currentWave % bossSpawnInterval == 0

/-- Boss index of WaveManager.spawnBoss:
Math.floor((currentWave / bossSpawnInterval) - 1) % bossTypes.length.
JavaScript floor of (w/5 - 1) equals integer division w/5 minus one, and the
JavaScript % operator is truncated remainder (Int.tmod). -/
def bossIndex (wave : ℕ) : ℤ :=
  (((wave / bossSpawnInterval : ℕ) : ℤ) - 1).tmod 3

/-- Boss type selected by WaveManager.spawnBoss for a given wave; none models
the undefined JavaScript array lookup at a negative index. -/
def bossTypeFor (wave : ℕ) : Option BossType :=
  if 0 ≤ bossIndex wave then bossTypes.get? (bossIndex wave).toNat else none

/-- WaveManager.spawnBoss reduced to the data the claims concern: the boss
type selection (the spawn position is randomised and not modelled). -/
def spawnBoss (s : WaveManager) : Spawned :=
  Spawned.boss (bossTypeFor s.currentWave)

/-- WaveManager.advanceWave. -/
def advanceWave (s : WaveManager) : WaveManager :=
  { s with
    currentWave := s.currentWave + 1
    waveStartTime := 0
    spawnInterval := max 1 (s.spawnInterval * (97 / 100))
    maxActiveEnemies := min maxEnemiesCap (s.maxActiveEnemies + 5)
    bossSpawned := false
    bossDefeated := false
    bossWarningTriggered := false
    timeUntilBoss := 0 }

/-- WaveManager.update.  The returned Bool records whether the onBossWarning
callback fired during this call. -/
def WaveManager.update (s : WaveManager) (deltaTime : ℚ) : WaveManager × Bool :=
  let s1 := { s with
    waveStartTime := s.waveStartTime + deltaTime
    spawnTimer := s.spawnTimer + deltaTime }
  if isBossWave s1 = true ∧ s1.bossSpawned = false then
    let s2 := { s1 with timeUntilBoss := max 0 (bossWarningTime - s1.waveStartTime) }
    if bossWarningTime - 5 ≤ s2.waveStartTime ∧ s2.bossWarningTriggered = false then
      ({ s2 with bossWarningTriggered := true }, true)
    else
      (s2, false)
  else
    (s1, false)

/-- WaveManager.spawnEnemies.  The returned list holds the enemies pushed to
the result array; the onBossSpawn callback fires exactly when the list holds
a boss. -/
def spawnEnemies (s : WaveManager) (currentEnemyCount : ℕ) : WaveManager × List Spawned :=
  if isBossWave s = true then
    let p :=
      if s.bossSpawned = false ∧ bossWarningTime ≤ s.waveStartTime then
        ({ s with bossSpawned := true }, [spawnBoss s])
      else
        (s, ([] : List Spawned))
    let s1 := p.1
    let enemies := p.2
    if s1.bossSpawned = true ∧ s1.bossDefeated = false then
      (s1, enemies)
    else
      if s1.bossDefeated = true then
        if waveDuration ≤ s1.waveStartTime then (advanceWave s1, enemies)
        else (s1, enemies)
      else
        (s1, enemies)
  else
    let s1 := if waveDuration ≤ s.waveStartTime then advanceWave s else s
    if s1.spawnInterval ≤ s1.spawnTimer ∧ currentEnemyCount < s1.maxActiveEnemies then
      ({ s1 with spawnTimer := 0 }, [Spawned.regular])
    else
      (s1, ([] : List Spawned))

/-- WaveManager.onBossDefeated. -/
def onBossDefeated (s : WaveManager) : WaveManager :=
  { s with bossDefeated := true }

/-- WaveManager.isBossActive. -/
def isBossActive (s : WaveManager) : Bool :=
  isBossWave s && s.bossSpawned && !s.bossDefeated

/-- WaveManager.getTimeUntilBoss. -/
def getTimeUntilBoss (s : WaveManager) : ℚ :=
  if isBossWave s = false ∨ s.bossSpawned = true then 0
  else max 0 (bossWarningTime - s.waveStartTime)

/-- WaveManager.reset. -/
def WaveManager.reset (s : WaveManager) : WaveManager :=
  { s with
    currentWave := 1
    spawnTimer := 0
    waveStartTime := 0
    spawnInterval := 2
    maxActiveEnemies := 25
    bossSpawned := false
    bossDefeated := false
    bossWarningTriggered := false
    timeUntilBoss := 0 }

/-- Public operations of WaveManager, as invoked by the orchestrator: update,
spawnEnemies, onBossDefeated and reset (spawnSpecificBoss is a debug path that
does not mutate WaveManager state). -/
inductive WMOp
  | update (dt : ℚ)
  | spawn (currentEnemyCount : ℕ)
  | defeat
  | reset
  deriving DecidableEq, Repr

/-- One WaveManager operation, observed on the state only. -/
def step (s : WaveManager) : WMOp → WaveManager
  | WMOp.update dt => (WaveManager.update s dt).1
  | WMOp.spawn n => (spawnEnemies s n).1
  | WMOp.defeat => onBossDefeated s
  | WMOp.reset => WaveManager.reset s

/-- Run a sequence of WaveManager operations. -/
def run (s : WaveManager) (ops : List WMOp) : WaveManager :=
  ops.foldl step s

/-- States of WaveManager reachable from its initial state. -/
def Reachable (s : WaveManager) : Prop :=
  ∃ ops : List WMOp, s = run WaveManager.init ops

/-- Whether a spawned entity is a boss. -/
def isBossSpawn : Spawned → Bool
  | Spawned.boss _ => true
  | Spawned.regular => false

/-- Number of bosses returned by one operation. -/
def bossOut (s : WaveManager) : WMOp → ℕ
  | WMOp.spawn n => ((spawnEnemies s n).2.filter isBossSpawn).length
  | _ => 0

/-- Total number of bosses spawned along a sequence of operations. -/
def bossesSpawnedAlong (s : WaveManager) : List WMOp → ℕ
  | [] => 0
  | op :: rest => bossOut s op + bossesSpawnedAlong (step s op) rest

/-- bossSpawned flag as an integer, for counting arguments. -/
def bossFlag (s : WaveManager) : ℤ :=
  if s.bossSpawned = true then 1 else 0

/-- State of the normal-wave branch of spawnEnemies after its possible
wave advancement and before its spawn-cooldown check. -/
def normalAdvanced (s : WaveManager) : WaveManager :=
  if waveDuration ≤ s.waveStartTime then advanceWave s else s

/-- Claim C1 counterexample: the source computes only an upper clamp, so a
negative wall-clock gap (currentTime smaller than lastTime) yields a negative
deltaTime rather than the clamped 0 the claim states: at lastTime = 1000 and
currentTime = 0 the delta is -1. -/
theorem c1_counterexample :
    gameLoopDelta 1000 0 < 0 ∧ gameLoopDelta 1000 0 ≠ specClampDelta 1000 0 := by
  constructor
  · norm_num [gameLoopDelta]
  · norm_num [gameLoopDelta, specClampDelta]

/-- Claim C1 (amended): deltaTime equals min((currentTime - lastTime)/1000, 0.02),
so deltaTime is at most 0.02 for every pair of timestamps; and whenever the
measured gap is nonnegative it moreover equals clamp((currentTime -
lastTime)/1000, 0, 0.02) and is nonnegative.  There is no lower clamp for a
negative gap. -/
theorem c1_delta_upper_clamped (lastTime currentTime : ℚ) :
    gameLoopDelta lastTime currentTime ≤ 2 / 100 ∧
      (lastTime ≤ currentTime →
        0 ≤ gameLoopDelta lastTime currentTime ∧
          gameLoopDelta lastTime currentTime = specClampDelta lastTime currentTime) := by
  refine ⟨min_le_right _ _, fun h => ?_⟩
  have h0 : 0 ≤ (currentTime - lastTime) / 1000 := by
    apply div_nonneg (by linarith) (by norm_num)
  have hmin : 0 ≤ min ((currentTime - lastTime) / 1000) (2 / 100 : ℚ) :=
    le_min h0 (by norm_num)
  exact ⟨hmin, by rw [gameLoopDelta, specClampDelta, max_eq_right hmin]⟩

/-- Witness for c1_delta_upper_clamped at lastTime = 0, currentTime = 10. -/
theorem c1_delta_upper_clamped_witness :
    0 ≤ gameLoopDelta 0 10 ∧ gameLoopDelta 0 10 = specClampDelta 0 10 :=
  (c1_delta_upper_clamped 0 10).2 (by norm_num)

/-- Claim C3 counterexample: on a boss wave the boss spawn ignores
currentEnemyCount, so a spawnEnemies call at the population cap still returns
one boss and pushes the live count above maxActiveEnemies: in the state wave 5,
elapsed 5 s, cap 45, with currentEnemyCount 45, one enemy is returned and
45 + 1 exceeds the cap 45 of the resulting state. -/
theorem c3_counterexample :
    (spawnEnemies ⟨5, 0, 2, 5, 45, false, false, true, 0⟩ 45).2.length = 1 ∧
      (spawnEnemies ⟨5, 0, 2, 5, 45, false, false, true, 0⟩ 45).1.maxActiveEnemies <
        45 + (spawnEnemies ⟨5, 0, 2, 5, 45, false, false, true, 0⟩ 45).2.length := by
  decide

/-- Claim C3 (amended): every spawnEnemies call returns at most one enemy; on
a normal (non-boss) wave the returned enemies never push the live count above
maxActiveEnemies of the current (possibly just advanced) wave, and an enemy is
spawned exactly when the spawn cooldown has elapsed and currentEnemyCount is
below maxActiveEnemies.  On a boss wave the single boss spawn ignores
currentEnemyCount and may exceed the cap by one (see the counterexample). -/
theorem c3_normal_wave_cap (s : WaveManager) (n : ℕ) :
    (spawnEnemies s n).2.length ≤ 1 ∧
      (isBossWave s = false →
        n + (spawnEnemies s n).2.length ≤ max n (spawnEnemies s n).1.maxActiveEnemies ∧
          ((spawnEnemies s n).2 ≠ [] ↔
            ((normalAdvanced s).spawnInterval ≤ (normalAdvanced s).spawnTimer ∧
              n < (normalAdvanced s).maxActiveEnemies))) := by
  unfold spawnEnemies normalAdvanced
  split_ifs <;> simp_all <;> split_ifs <;> simp_all <;> omega

/-- Witness for c3_normal_wave_cap on a normal wave at the cap: wave 3,
cooldown elapsed, currentEnemyCount 24 of cap 25 spawns one enemy. -/
theorem c3_normal_wave_cap_witness :
    24 + (spawnEnemies ⟨3, 2, 2, 1, 25, false, false, false, 0⟩ 24).2.length ≤
      max 24 (spawnEnemies ⟨3, 2, 2, 1, 25, false, false, false, 0⟩ 24).1.maxActiveEnemies :=
  ((c3_normal_wave_cap ⟨3, 2, 2, 1, 25, false, false, false, 0⟩ 24).2 (by decide)).1

/-- Claim C4: onBossDefeated only marks the wave cleared and does not advance
it; afterwards every spawnEnemies call on the boss wave spawns nothing, leaves
the state untouched while elapsed time is below waveDuration, and advances to
the next wave exactly once waveDuration has elapsed. -/
theorem c4_boss_defeat_waits (s : WaveManager) (n : ℕ)
    (hb : isBossWave s = true) (hs : s.bossSpawned = true) (hd : s.bossDefeated = true) :
    (onBossDefeated s).currentWave = s.currentWave ∧
      (onBossDefeated s).bossDefeated = true ∧
      (spawnEnemies s n).2 = [] ∧
      (s.waveStartTime < waveDuration → (spawnEnemies s n).1 = s) ∧
      (waveDuration ≤ s.waveStartTime → (spawnEnemies s n).1 = advanceWave s) := by
  refine ⟨rfl, rfl, ?_, ?_, ?_⟩
  · unfold spawnEnemies
    split_ifs <;> simp_all <;> split_ifs <;> simp_all
  · intro h
    unfold spawnEnemies
    split_ifs <;> simp_all
    all_goals rw [if_neg (not_le.mpr h)]
  · intro h
    unfold spawnEnemies
    split_ifs <;> simp_all

/-- Witness for c4_boss_defeat_waits: boss wave 5, boss spawned and defeated
at elapsed 10 s (20 s still remaining in waveDuration): no enemy is returned
and the wave does not advance. -/
theorem c4_boss_defeat_waits_witness :
    (spawnEnemies ⟨5, 0, 2, 10, 45, true, true, true, 0⟩ 0).2 = [] ∧
      (spawnEnemies ⟨5, 0, 2, 10, 45, true, true, true, 0⟩ 0).1 =
        (⟨5, 0, 2, 10, 45, true, true, true, 0⟩ : WaveManager) := by
  have h := c4_boss_defeat_waits ⟨5, 0, 2, 10, 45, true, true, true, 0⟩ 0 (by decide) rfl rfl
  exact ⟨h.2.2.1, h.2.2.2.1 (by norm_num [waveDuration])⟩

/-- Helper for claim C5: on a genuine boss wave (wave at least 1 and divisible
by bossSpawnInterval) the truncated-remainder boss index of spawnBoss agrees
with the natural-number round robin (wave / 5 - 1) % 3 of the claim. -/
theorem bossTypeFor_boss_wave (w : ℕ) (h5 : 1 ≤ w / bossSpawnInterval) :
    bossTypeFor w = bossTypes.get? ((w / bossSpawnInterval - 1) % 3) := by
  have hrw : bossIndex w = ((w / bossSpawnInterval - 1 : ℕ) : ℤ) % 3 := by
    unfold bossIndex
    have h1 : (((w / bossSpawnInterval : ℕ) : ℤ) - 1) = ((w / bossSpawnInterval - 1 : ℕ) : ℤ) := by
      omega
    rw [h1, Int.tmod_eq_emod (by omega) (by omega)]
  have h0 : 0 ≤ bossIndex w := by
    rw [hrw]
    exact Int.emod_nonneg _ (by norm_num)
  have htn : (bossIndex w).toNat = (w / bossSpawnInterval - 1) % 3 := by
    rw [hrw]
    omega
  unfold bossTypeFor
  rw [if_pos h0, htn]

/-- Claim C5: on a boss wave where no boss has spawned and elapsed time has
reached the spawn delay, spawnEnemies returns exactly one boss and marks the
boss spawned; the boss type is the deterministic round robin
bossTypes[(wave / bossCycleLength - 1) mod 3], a pure function of the wave
number. -/
theorem c5_boss_spawn (s : WaveManager) (n : ℕ)
    (hb : isBossWave s = true) (hns : s.bossSpawned = false)
    (hnd : s.bossDefeated = false) (ht : bossWarningTime ≤ s.waveStartTime)
    (hw : 1 ≤ s.currentWave) :
    (spawnEnemies s n).2 = [Spawned.boss (bossTypeFor s.currentWave)] ∧
      (spawnEnemies s n).1.bossSpawned = true ∧
      bossTypeFor s.currentWave =
        bossTypes.get? ((s.currentWave / bossSpawnInterval - 1) % 3) := by
  have hdvd : s.currentWave % bossSpawnInterval = 0 := by
    simpa [isBossWave] using hb
  have h5 : 1 ≤ s.currentWave / bossSpawnInterval := by
    unfold bossSpawnInterval at hdvd ⊢
    omega
  refine ⟨?_, ?_, bossTypeFor_boss_wave _ h5⟩ <;>
    · unfold spawnEnemies spawnBoss
      split_ifs <;> simp_all

/-- Witness for c5_boss_spawn at wave 5, elapsed 5 s: exactly one boss is
returned and it is the first of the round robin, the necromancer. -/
theorem c5_boss_spawn_witness :
    (spawnEnemies ⟨5, 0, 2, 5, 45, false, false, true, 0⟩ 0).2 =
        [Spawned.boss (some BossType.necromancer)] ∧
      (spawnEnemies ⟨5, 0, 2, 5, 45, false, false, true, 0⟩ 0).1.bossSpawned = true := by
  have h := c5_boss_spawn ⟨5, 0, 2, 5, 45, false, false, true, 0⟩ 0 (by decide) rfl rfl
    (by norm_num [bossWarningTime]) (by norm_num)
  refine ⟨?_, h.2.1⟩
  rw [h.1]
  decide

/-- Every WaveManager operation except reset leaves the wave number equal or
larger; only advanceWave inside spawnEnemies changes it, by exactly one. -/
theorem step_wave_mono (s : WaveManager) (op : WMOp) (h : op ≠ WMOp.reset) :
    s.currentWave ≤ (step s op).currentWave := by
  cases op with
  | update dt =>
      simp only [step, WaveManager.update]
      split_ifs <;> simp
  | spawn n =>
      simp only [step, spawnEnemies]
      split_ifs <;> simp_all [advanceWave] <;> split_ifs <;> simp_all [advanceWave]
  | defeat =>
      simp [step, onBossDefeated]
  | reset =>
      exact absurd rfl h

/-- Wave number is non-decreasing along any operation sequence without reset. -/
theorem run_wave_mono (ops : List WMOp) (s : WaveManager) (h : WMOp.reset ∉ ops) :
    s.currentWave ≤ (run s ops).currentWave := by
  induction ops generalizing s with
  | nil => simp [run]
  | cons op rest ih =>
      have hop : op ≠ WMOp.reset := fun he => h (he ▸ List.mem_cons_self _ _)
      have hrest : WMOp.reset ∉ rest := fun hm => h (List.mem_cons_of_mem _ hm)
      simp only [run, List.foldl_cons]
      exact le_trans (step_wave_mono s op hop) (ih (step s op) hrest)

/-- One step preserves the invariant that bossSpawned only holds on a boss
wave: the flag is only set inside the isBossWave branch of spawnEnemies and
is cleared by every wave advancement and by reset. -/
theorem step_bossSpawned_isBossWave (s : WaveManager) (op : WMOp)
    (h : s.bossSpawned = true → isBossWave s = true) :
    (step s op).bossSpawned = true → isBossWave (step s op) = true := by
  cases op with
  | update dt =>
      simp only [step, WaveManager.update]
      split_ifs <;> simp_all [isBossWave]
  | spawn n =>
      simp only [step, spawnEnemies]
      split_ifs <;> simp_all [isBossWave, advanceWave] <;>
        split_ifs <;> simp_all [isBossWave, advanceWave]
  | defeat =>
      simpa [step, onBossDefeated, isBossWave] using h
  | reset =>
      simp [step, WaveManager.reset]

/-- Invariant of claim C8 on every reachable WaveManager state. -/
theorem reachable_bossSpawned_isBossWave (ops : List WMOp) :
    (run WaveManager.init ops).bossSpawned = true →
      isBossWave (run WaveManager.init ops) = true := by
  suffices h : ∀ s : WaveManager, (s.bossSpawned = true → isBossWave s = true) →
      ((run s ops).bossSpawned = true → isBossWave (run s ops) = true) by
    exact h WaveManager.init (by simp [WaveManager.init])
  induction ops with
  | nil => intro s hs; simpa [run] using hs
  | cons op rest ih =>
      intro s hs
      simp only [run, List.foldl_cons]
      exact ih (step s op) (step_bossSpawned_isBossWave s op hs)

/-- Counting bound for one step: a new boss can only appear by flipping
bossSpawned from false to true, and bossSpawned is only cleared by a wave
advancement (or reset, excluded here). -/
theorem step_boss_count (s : WaveManager) (op : WMOp) (h : op ≠ WMOp.reset) :
    (bossOut s op : ℤ) + bossFlag s - bossFlag (step s op) ≤
      ((step s op).currentWave : ℤ) - (s.currentWave : ℤ) := by
  cases op with
  | update dt =>
      simp only [step, bossOut, bossFlag, WaveManager.update]
      split_ifs <;> simp_all
  | spawn n =>
      simp only [step, bossOut, bossFlag, spawnEnemies]
      split_ifs <;> simp_all [advanceWave, spawnBoss, isBossSpawn] <;>
        split_ifs <;> simp_all <;> omega
  | defeat =>
      simp only [step, bossOut, bossFlag, onBossDefeated]
      split_ifs <;> simp_all
  | reset =>
      exact absurd rfl h

/-- Counting bound along a reset-free operation sequence. -/
theorem run_boss_count (ops : List WMOp) (s : WaveManager) (h : WMOp.reset ∉ ops) :
    (bossesSpawnedAlong s ops : ℤ) + bossFlag s - bossFlag (run s ops) ≤
      ((run s ops).currentWave : ℤ) - (s.currentWave : ℤ) := by
  induction ops generalizing s with
  | nil => simp [run, bossesSpawnedAlong]
  | cons op rest ih =>
      have hop : op ≠ WMOp.reset := fun he => h (he ▸ List.mem_cons_self _ _)
      have hrest : WMOp.reset ∉ rest := fun hm => h (List.mem_cons_of_mem _ hm)
      have h1 := step_boss_count s op hop
      have h2 := ih (step s op) hrest
      simp only [run, List.foldl_cons] at h2 ⊢
      unfold bossesSpawnedAlong
      push_cast
      linarith

/-- Claim C8: isBossActive holds exactly between a boss spawn and its defeat
(boss wave, bossSpawned, not bossDefeated); on every reachable state
bossSpawned implies the current wave is a boss wave; and along any reset-free
operation sequence that stays within one wave, starting with no boss spawned,
at most one boss is ever spawned — so at most one boss is alive at any time. -/
theorem c8_boss_active_invariants :
    (∀ s : WaveManager,
        isBossActive s = true ↔
          isBossWave s = true ∧ s.bossSpawned = true ∧ s.bossDefeated = false) ∧
      (∀ ops : List WMOp,
        (run WaveManager.init ops).bossSpawned = true →
          isBossWave (run WaveManager.init ops) = true) ∧
      (∀ (s : WaveManager) (ops : List WMOp),
        s.bossSpawned = false → WMOp.reset ∉ ops →
          (run s ops).currentWave = s.currentWave →
          bossesSpawnedAlong s ops ≤ 1) := by
  refine ⟨?_, reachable_bossSpawned_isBossWave, ?_⟩
  · intro s
    simp [isBossActive, and_assoc]
  · intro s ops hb hr hw
    have h := run_boss_count ops s hr
    have hf : bossFlag (run s ops) ≤ 1 := by
      unfold bossFlag
      split_ifs <;> norm_num
    have h0 : bossFlag s = 0 := by
      simp [bossFlag, hb]
    have hwz : ((run s ops).currentWave : ℤ) = (s.currentWave : ℤ) := by
      exact_mod_cast hw
    have hz : (bossesSpawnedAlong s ops : ℤ) ≤ 1 := by linarith
    exact_mod_cast hz

/-- Witness for c8_boss_active_invariants: from the initial state, a spawn
call stays in wave 1 and spawns at most one boss (in fact zero). -/
theorem c8_boss_active_invariants_witness :
    bossesSpawnedAlong WaveManager.init [WMOp.spawn 0] ≤ 1 :=
  c8_boss_active_invariants.2.2 WaveManager.init [WMOp.spawn 0]
    rfl (by decide) (by decide)

/-- Claim C9: advanceWave increments the wave by exactly one, resets elapsed
time, decays the spawn interval by the 0.97 ratio down to the floor of 1 and
raises the population cap by 5 up to the ceiling maxEnemiesCap = 80; under
the run invariants (spawn interval at least 1, cap at most 80) the interval is
non-increasing and the cap non-decreasing, and the wave number never decreases
along any reset-free operation sequence. -/
theorem c9_advance_wave_monotone :
    (∀ s : WaveManager,
        (advanceWave s).currentWave = s.currentWave + 1 ∧
          (advanceWave s).waveStartTime = 0 ∧
          (advanceWave s).spawnInterval = max 1 (s.spawnInterval * (97 / 100)) ∧
          (advanceWave s).maxActiveEnemies = min maxEnemiesCap (s.maxActiveEnemies + 5)) ∧
      (∀ s : WaveManager, 1 ≤ s.spawnInterval →
        1 ≤ (advanceWave s).spawnInterval ∧
          (advanceWave s).spawnInterval ≤ s.spawnInterval) ∧
      (∀ s : WaveManager, s.maxActiveEnemies ≤ maxEnemiesCap →
        s.maxActiveEnemies ≤ (advanceWave s).maxActiveEnemies ∧
          (advanceWave s).maxActiveEnemies ≤ maxEnemiesCap) ∧
      (∀ (s : WaveManager) (ops : List WMOp), WMOp.reset ∉ ops →
        s.currentWave ≤ (run s ops).currentWave) := by
  refine ⟨fun s => ⟨rfl, rfl, rfl, rfl⟩, ?_, ?_, fun s ops h => run_wave_mono ops s h⟩
  · intro s h
    unfold advanceWave
    refine ⟨le_max_left _ _, max_le h (by linarith)⟩
  · intro s h
    unfold advanceWave maxEnemiesCap at *
    constructor <;> simp <;> omega

/-- Witness for c9_advance_wave_monotone at the initial state. -/
theorem c9_advance_wave_monotone_witness :
    1 ≤ (advanceWave WaveManager.init).spawnInterval ∧
      (advanceWave WaveManager.init).maxActiveEnemies ≤ maxEnemiesCap ∧
      WaveManager.init.currentWave ≤
        (run WaveManager.init [WMOp.update 1, WMOp.spawn 0]).currentWave :=
  ⟨(c9_advance_wave_monotone.2.1 WaveManager.init (by norm_num [WaveManager.init])).1,
    (c9_advance_wave_monotone.2.2.1 WaveManager.init (by decide)).2,
    c9_advance_wave_monotone.2.2.2 WaveManager.init [WMOp.update 1, WMOp.spawn 0] (by decide)⟩

/-- Frame-sampled input snapshot (the InputState interface of
InputManager.ts). -/
structure InputState where
  left : Bool
  right : Bool
  up : Bool
  down : Bool
  mute : Bool
  restart : Bool
  pause : Bool
  weapon1 : Bool
  weapon2 : Bool
  weapon3 : Bool
  weapon4 : Bool
  weapon5 : Bool
  deriving DecidableEq, Repr

/-- The all-false snapshot.  Both the paused early return of
InputManager.getInput and the emptyInput literals of GameEngine.update write
this record field by field with every field false. -/
def emptyInput : InputState :=
  { left := false, right := false, up := false, down := false, mute := false,
    restart := false, pause := false, weapon1 := false, weapon2 := false,
    weapon3 := false, weapon4 := false, weapon5 := false }

/-- Mutable state of InputManager: the keys map (JavaScript object from key
code to boolean, absent keys read as false), the ignoreUntilRelease set
(membership as a boolean predicate) and the isPaused flag. -/
structure InputManager where
  keys : String → Bool
  ignoreUntilRelease : String → Bool
  isPaused : Bool

/-- Movement key codes in the order of the array in
InputManager.handleKeyDown. -/
def movementCodes : List String :=
  ["KeyW", "KeyA", "KeyS", "KeyD", "ArrowUp", "ArrowDown", "ArrowLeft", "ArrowRight"]

/-- Movement key codes in the order of the array in
InputManager.clearMovementKeys. -/
def movementKeys : List String :=
  ["KeyW", "ArrowUp", "KeyS", "ArrowDown", "KeyA", "ArrowLeft", "KeyD", "ArrowRight"]

/-- InputManager.handleKeyDown for a key code: movement keys are dropped
while paused; a key in the ignoreUntilRelease set is not registered. -/
def handleKeyDown (m : InputManager) (code : String) : InputManager :=
  if code ∈ movementCodes ∧ m.isPaused = true then m
  else if m.ignoreUntilRelease code = false then
    { m with keys := fun c => if c = code then true else m.keys c }
  else m

/-- InputManager.handleKeyUp: clears the key and removes it from the
ignoreUntilRelease set. -/
def handleKeyUp (m : InputManager) (code : String) : InputManager :=
  { m with
    keys := fun c => if c = code then false else m.keys c
    ignoreUntilRelease := fun c => if c = code then false else m.ignoreUntilRelease c }

/-- InputManager.getInput: with paused = true it returns the inline all-false
record of the source (equal to emptyInput); otherwise it samples the keys
map. -/
def getInput (m : InputManager) (paused : Bool) : InputState :=
  if paused = true then emptyInput
  else
    { up := m.keys "KeyW" || m.keys "ArrowUp"
      down := m.keys "KeyS" || m.keys "ArrowDown"
      left := m.keys "KeyA" || m.keys "ArrowLeft"
      right := m.keys "KeyD" || m.keys "ArrowRight"
      weapon1 := m.keys "1"
      weapon2 := m.keys "2"
      weapon3 := m.keys "3"
      weapon4 := m.keys "4"
      weapon5 := m.keys "5"
      mute := m.keys "m" || m.keys "M"
      restart := m.keys "r" || m.keys "R"
      pause := m.keys "Escape" }

/-- InputManager.setPaused. -/
def setPaused (m : InputManager) (paused : Bool) : InputManager :=
  { m with isPaused := paused }

/-- Body of the forEach loop of InputManager.clearMovementKeys: a currently
pressed movement key is added to the ignoreUntilRelease set, and the key
state is cleared unconditionally. -/
def clearOneKey (acc : InputManager) (key : String) : InputManager :=
  { acc with
    ignoreUntilRelease :=
      if acc.keys key = true then fun c => acc.ignoreUntilRelease c || (c == key)
      else acc.ignoreUntilRelease
    keys := fun c => if c = key then false else acc.keys c }

/-- InputManager.clearMovementKeys: forEach over the movement keys. -/
def clearMovementKeys (m : InputManager) : InputManager :=
  movementKeys.foldl clearOneKey m

/-- The clearing fold leaves isPaused untouched. -/
theorem foldl_clearOneKey_isPaused (L : List String) (m : InputManager) :
    (L.foldl clearOneKey m).isPaused = m.isPaused := by
  induction L generalizing m with
  | nil => rfl
  | cons k rest ih => simp only [List.foldl_cons, ih, clearOneKey]

/-- Key states after the clearing fold: every key of the list is cleared,
the others are untouched. -/
theorem foldl_clearOneKey_keys (L : List String) (m : InputManager) (c : String) :
    (L.foldl clearOneKey m).keys c = if c ∈ L then false else m.keys c := by
  induction L generalizing m with
  | nil => simp
  | cons k rest ih =>
      simp only [List.foldl_cons, ih, clearOneKey, List.mem_cons]
      by_cases hc : c = k <;> by_cases hr : c ∈ rest <;> simp [hc, hr]

/-- Ignore set after the clearing fold: a key of the list is in the set
afterwards exactly if it was in the set before or was pressed before. -/
theorem foldl_clearOneKey_ignore (L : List String) (m : InputManager) (c : String) :
    (L.foldl clearOneKey m).ignoreUntilRelease c =
      (m.ignoreUntilRelease c || (decide (c ∈ L) && m.keys c)) := by
  induction L generalizing m with
  | nil => simp
  | cons k rest ih =>
      simp only [List.foldl_cons, ih, List.mem_cons]
      by_cases hc : c = k
      · subst hc
        cases hk : m.keys c <;> simp [clearOneKey, hk]
      · cases hk : m.keys k <;>
          simp [clearOneKey, hk, hc, Ne.symm hc] <;>
          cases m.ignoreUntilRelease c <;> simp [hc]

/-- GameStateManager.handlePauseInput on a rising edge of the pause input:
while playing it pauses, while paused it resumes; lastPauseState is always
set to the sampled pause input.  The store calls gameState.pause() and
gameState.resume() are modelled from the spec as the direct phase flips
playing-to-paused and paused-to-playing (the zustand store itself is outside
the given sources); the session-stats snapshot taken before pausing is a
persistence side effect no claim here depends on. -/
def handlePauseInput (phase : Phase) (lastPauseState : Bool) (pauseInput : Bool) :
    Phase × Bool :=
  if pauseInput = true ∧ lastPauseState = false then
    if phase = Phase.playing then (Phase.paused, pauseInput)
    else if phase = Phase.paused then (Phase.playing, pauseInput)
    else (phase, pauseInput)
  else (phase, pauseInput)

/-- State of the orchestrator (GameEngine together with the phase and health
of the useGameState store and the death-processing collaborators): the
counters record how often GameStateManager.handlePlayerDeath has invoked
StatisticsSystem.recordRun, PersistentProgressionSystem.recordRunEnd and
PersistentProgressionSystem.addCurrency; endScheduled records a pending
setTimeout(() => gameState.end(), 50) not yet fired by the host. -/
structure Engine where
  phase : Phase
  health : ℚ
  lastPauseState : Bool
  isPausedLocal : Bool
  previousPhase : Phase
  im : InputManager
  wm : WaveManager
  enemyCount : ℕ
  recordRunCount : ℕ
  recordRunEndCount : ℕ
  addCurrencyCount : ℕ
  endScheduled : Bool

/-- Observable per-frame effects of GameEngine.update on the collaborators
that the claims concern: whether waveManager.update ran, the (deltaTime,
input) passed to player.update, the deltaTime passed to entityManager.update
and to player.fireWeapon, whether the returned projectiles were appended,
whether clearMovementKeys ran, and whether death processing ran. -/
structure FrameEffects where
  waveUpdated : Bool
  playerUpdatedWith : Option (ℚ × InputState)
  entitiesUpdatedWith : Option ℚ
  weaponFiredWith : Option ℚ
  projectilesAdded : Bool
  clearedMovementKeys : Bool
  deathHandled : Bool
  deriving DecidableEq, Repr

/-- GameStateManager.handlePlayerDeath: records the run to the statistics and
progression collaborators, awards currency, and schedules gameState.end()
through setTimeout(..., 50) — the phase is NOT changed synchronously.
Modelled from the spec: the store end() transition runs only after the short
grace delay, once the host fires the timeout (see fireScheduledEnd). -/
def handlePlayerDeath (e : Engine) : Engine :=
  { e with
    recordRunCount := e.recordRunCount + 1
    recordRunEndCount := e.recordRunEndCount + 1
    addCurrencyCount := e.addCurrencyCount + 1
    endScheduled := true }

/-- Modelled from the spec: the useGameState store (not among the given
sources) ends the phase only when the deferred end() scheduled by
handlePlayerDeath fires, i.e. after the short grace delay of the
setTimeout(..., 50).  The host fires that 50 ms timeout between frames and,
at a typical 16 ms frame cadence, only after several further frames have
run. -/
def fireScheduledEnd (e : Engine) : Engine :=
  if e.endScheduled = true then
    { e with phase := Phase.gameOver, endScheduled := false }
  else e

/-- Phase as read from the store by GameEngine.update after its pause-input
handling (the phase that all the branch checks of the frame observe). -/
def observedPhase (e : Engine) : Phase :=
  (handlePauseInput e.phase e.lastPauseState (getInput e.im false).pause).1

/-- GameEngine.update for one frame.  Faithful to the branch structure of the
source: pause-input handling first (on an unpaused input sample), pause-state
bookkeeping, clearing of movement keys on the resume transition, then the
paused / gameOver / levelUp early returns, the death check, and finally the
playing path (wave update, spawn, weapon fire, entity update).  Camera,
collision handling, combo/screen-shake update and the periodic wall-clock
stats snapshot touch no state the claims concern and are not modelled; the
wasPaused local of the source is dead code. -/
def engineUpdate (e : Engine) (dt : ℚ) : Engine × FrameEffects :=
  let input := getInput e.im false
  let pr := handlePauseInput e.phase e.lastPauseState input.pause
  let ph1 := pr.1
  let isPausedOrLevelUp : Bool := decide (ph1 = Phase.paused ∨ ph1 = Phase.levelUp)
  let isPausedNow : Bool := decide (ph1 = Phase.paused)
  let im1 := setPaused e.im isPausedOrLevelUp
  let pcl :=
    if (e.previousPhase = Phase.paused ∨ e.previousPhase = Phase.levelUp) ∧
        ph1 = Phase.playing then
      (clearMovementKeys im1, true)
    else
      (im1, false)
  let e1 : Engine :=
    { e with
      phase := ph1
      lastPauseState := pr.2
      isPausedLocal := isPausedNow
      previousPhase := ph1
      im := pcl.1 }
  if isPausedNow = true then
    (e1,
      { waveUpdated := false, playerUpdatedWith := some (dt, emptyInput),
        entitiesUpdatedWith := some dt, weaponFiredWith := some dt,
        projectilesAdded := true, clearedMovementKeys := pcl.2,
        deathHandled := false })
  else if ph1 = Phase.gameOver then
    ({ e1 with wm := (WaveManager.update e1.wm dt).1 },
      { waveUpdated := true, playerUpdatedWith := none,
        entitiesUpdatedWith := some dt, weaponFiredWith := none,
        projectilesAdded := false, clearedMovementKeys := pcl.2,
        deathHandled := false })
  else if ph1 = Phase.levelUp then
    ({ e1 with wm := (WaveManager.update e1.wm dt).1 },
      { waveUpdated := true, playerUpdatedWith := some (dt, emptyInput),
        entitiesUpdatedWith := some dt, weaponFiredWith := none,
        projectilesAdded := false, clearedMovementKeys := pcl.2,
        deathHandled := false })
  else if e.health ≤ 0 ∧ ph1 = Phase.playing then
    (handlePlayerDeath e1,
      { waveUpdated := false, playerUpdatedWith := none,
        entitiesUpdatedWith := none, weaponFiredWith := none,
        projectilesAdded := false, clearedMovementKeys := pcl.2,
        deathHandled := true })
  else
    let playerInput := getInput pcl.1 isPausedNow
    let wm1 := (WaveManager.update e1.wm dt).1
    let sp := spawnEnemies wm1 e1.enemyCount
    ({ e1 with wm := sp.1, enemyCount := e1.enemyCount + sp.2.length },
      { waveUpdated := true, playerUpdatedWith := some (dt, playerInput),
        entitiesUpdatedWith := some dt, weaponFiredWith := some dt,
        projectilesAdded := true, clearedMovementKeys := pcl.2,
        deathHandled := false })

/-- An InputManager with no key pressed, nothing ignored and not paused. -/
def allKeysUp : InputManager :=
  { keys := fun _ => false, ignoreUntilRelease := fun _ => false, isPaused := false }

/-- An engine state on the frame of death: phase playing, health 0, no input
held, death processing not yet run. -/
def deadFrameStart : Engine :=
  ⟨Phase.playing, 0, false, false, Phase.playing, allKeysUp,
    WaveManager.init, 0, 0, 0, 0, false⟩

/-- Claim C2 exhibit: with health 0 and phase playing, two consecutive frames
each run the death processing, because handlePlayerDeath defers
gameState.end() through a 50 ms timeout while checkPlayerDeath keeps holding
(the phase is still playing and health is still 0 on the next frame, which at
the 16 ms host frame cadence arrives before the timeout).  recordRun,
recordRunEnd and addCurrency are therefore each invoked twice for one run. -/
theorem c2_death_processed_twice :
    (engineUpdate deadFrameStart (1 / 100)).1.phase = Phase.playing ∧
      (engineUpdate deadFrameStart (1 / 100)).1.recordRunEndCount = 1 ∧
      (engineUpdate (engineUpdate deadFrameStart (1 / 100)).1 (1 / 100)).1.recordRunCount = 2 ∧
      (engineUpdate (engineUpdate deadFrameStart (1 / 100)).1 (1 / 100)).1.recordRunEndCount = 2 ∧
      (engineUpdate (engineUpdate deadFrameStart (1 / 100)).1 (1 / 100)).1.addCurrencyCount = 2 := by
  decide

/-- Claim C6: getInput with paused = true is the all-false snapshot for every
internal key state; and on a frame whose observed phase is paused, the update
does not run waveManager.update (the wave state, and with it the wave elapsed
time, is unchanged) and the player is updated with the all-false input, so it
receives zero movement regardless of held keys. -/
theorem c6_pause_freezes :
    (∀ m : InputManager, getInput m true = emptyInput) ∧
      ∀ (e : Engine) (dt : ℚ), observedPhase e = Phase.paused →
        (engineUpdate e dt).2.waveUpdated = false ∧
          (engineUpdate e dt).1.wm = e.wm ∧
          (engineUpdate e dt).2.playerUpdatedWith = some (dt, emptyInput) := by
  constructor
  · intro m
    rfl
  · intro e dt h
    unfold observedPhase at h
    simp only [engineUpdate, h]
    simp

/-- An engine state sitting in the paused phase with no new pause input. -/
def pausedEngine : Engine :=
  ⟨Phase.paused, 100, false, true, Phase.paused, allKeysUp,
    WaveManager.init, 0, 0, 0, 0, false⟩

/-- Witness for c6_pause_freezes on a concrete paused frame. -/
theorem c6_pause_freezes_witness :
    (engineUpdate pausedEngine (1 / 100)).2.waveUpdated = false ∧
      (engineUpdate pausedEngine (1 / 100)).1.wm = pausedEngine.wm ∧
      (engineUpdate pausedEngine (1 / 100)).2.playerUpdatedWith =
        some (1 / 100, emptyInput) :=
  c6_pause_freezes.2 pausedEngine (1 / 100) (by decide)

/-- Claim C10: on a paused frame the update still fires the player weapon
with the frame deltaTime and appends the returned projectiles, and still
updates the player and the registered entities with that deltaTime; the
freeze applies only to the wave director (not updated) and to the movement
input (all-false). -/
theorem c10_paused_frame_still_updates (e : Engine) (dt : ℚ)
    (h : observedPhase e = Phase.paused) :
    (engineUpdate e dt).2.weaponFiredWith = some dt ∧
      (engineUpdate e dt).2.projectilesAdded = true ∧
      (engineUpdate e dt).2.playerUpdatedWith = some (dt, emptyInput) ∧
      (engineUpdate e dt).2.entitiesUpdatedWith = some dt ∧
      (engineUpdate e dt).2.waveUpdated = false ∧
      (engineUpdate e dt).1.wm = e.wm := by
  unfold observedPhase at h
  simp only [engineUpdate, h]
  simp

/-- A second paused engine state (with enemies alive and a held key). -/
def pausedEngineBusy : Engine :=
  ⟨Phase.paused, 50, false, true, Phase.playing,
    { keys := fun c => decide (c = "KeyW"), ignoreUntilRelease := fun _ => false,
      isPaused := true },
    WaveManager.init, 3, 0, 0, 0, false⟩

/-- Witness for c10_paused_frame_still_updates on a concrete paused frame. -/
theorem c10_paused_frame_still_updates_witness :
    (engineUpdate pausedEngineBusy (1 / 50)).2.weaponFiredWith = some (1 / 50) ∧
      (engineUpdate pausedEngineBusy (1 / 50)).2.projectilesAdded = true ∧
      (engineUpdate pausedEngineBusy (1 / 50)).2.playerUpdatedWith =
        some (1 / 50, emptyInput) ∧
      (engineUpdate pausedEngineBusy (1 / 50)).2.entitiesUpdatedWith = some (1 / 50) ∧
      (engineUpdate pausedEngineBusy (1 / 50)).2.waveUpdated = false ∧
      (engineUpdate pausedEngineBusy (1 / 50)).1.wm = pausedEngineBusy.wm :=
  c10_paused_frame_still_updates pausedEngineBusy (1 / 50) (by decide)

/-- On a resume frame (previous phase paused or levelUp, observed phase
playing) the update runs clearMovementKeys on the input manager, whatever the
rest of the frame does. -/
theorem engineUpdate_resume_im (e : Engine) (dt : ℚ)
    (hprev : e.previousPhase = Phase.paused ∨ e.previousPhase = Phase.levelUp)
    (hph : observedPhase e = Phase.playing) :
    (engineUpdate e dt).1.im = clearMovementKeys (setPaused e.im false) ∧
      (engineUpdate e dt).2.clearedMovementKeys = true := by
  unfold observedPhase at hph
  simp only [engineUpdate, hph]
  split_ifs <;> simp_all [handlePlayerDeath]

/-- Claim C7: on the first frame after resuming from pause or levelUp, every
held movement key is cleared and entered into the ignore-until-release set;
a subsequent key-down of a still-ignored key does not register, and after a
physical key-up the key registers again on the next key-down. -/
theorem c7_resume_clears_held_keys (e : Engine) (dt : ℚ) (k : String)
    (hprev : e.previousPhase = Phase.paused ∨ e.previousPhase = Phase.levelUp)
    (hph : observedPhase e = Phase.playing)
    (hk : k ∈ movementKeys) :
    (engineUpdate e dt).2.clearedMovementKeys = true ∧
      (engineUpdate e dt).1.im.keys k = false ∧
      (engineUpdate e dt).1.im.ignoreUntilRelease k =
        (e.im.ignoreUntilRelease k || e.im.keys k) ∧
      (e.im.keys k = true →
        (handleKeyDown ((engineUpdate e dt).1.im) k).keys k = false) ∧
      (handleKeyDown (handleKeyUp ((engineUpdate e dt).1.im) k) k).keys k = true := by
  obtain ⟨him, hcl⟩ := engineUpdate_resume_im e dt hprev hph
  have hp : (clearMovementKeys (setPaused e.im false)).isPaused = false := by
    unfold clearMovementKeys
    rw [foldl_clearOneKey_isPaused]
    rfl
  have hkeys : (clearMovementKeys (setPaused e.im false)).keys k = false := by
    unfold clearMovementKeys
    rw [foldl_clearOneKey_keys]
    simp [hk]
  have hign : (clearMovementKeys (setPaused e.im false)).ignoreUntilRelease k =
      (e.im.ignoreUntilRelease k || e.im.keys k) := by
    unfold clearMovementKeys
    rw [foldl_clearOneKey_ignore]
    simp [hk, setPaused]
  refine ⟨hcl, ?_, ?_, ?_, ?_⟩
  · rw [him, hkeys]
  · rw [him, hign]
  · intro hkey
    rw [him]
    have hig1 : (clearMovementKeys (setPaused e.im false)).ignoreUntilRelease k = true := by
      rw [hign, hkey, Bool.or_true]
    unfold handleKeyDown
    rw [if_neg (by simp [hp]), if_neg (by simp [hig1])]
    exact hkeys
  · rw [him]
    simp [handleKeyUp, handleKeyDown, hp]

/-- An engine resuming to playing with the KeyW movement key held through the
pause. -/
def resumedEngine : Engine :=
  ⟨Phase.playing, 100, false, true, Phase.paused,
    { keys := fun c => decide (c = "KeyW"), ignoreUntilRelease := fun _ => false,
      isPaused := true },
    WaveManager.init, 0, 0, 0, 0, false⟩

/-- Witness for c7_resume_clears_held_keys: the held KeyW is cleared, ignored
until release, and a key-down while ignored does not register. -/
theorem c7_resume_clears_held_keys_witness :
    (engineUpdate resumedEngine (1 / 100)).2.clearedMovementKeys = true ∧
      (engineUpdate resumedEngine (1 / 100)).1.im.keys "KeyW" = false ∧
      (handleKeyDown ((engineUpdate resumedEngine (1 / 100)).1.im) "KeyW").keys "KeyW" =
        false := by
  have h := c7_resume_clears_held_keys resumedEngine (1 / 100) "KeyW"
    (Or.inl rfl) (by decide) (by decide)
  exact ⟨h.1, h.2.1, h.2.2.2.1 (by decide)⟩

end Game
